import Mathlib

/-!
Shallow embedding, in Lean 4, of the video ingestion / search / clip
extraction pipeline of the `multimodal-rag-agent` repository
(`multimodal-mcp/src/multimodal_mcp`).

Modelling conventions:
* Similarity scores and times are rationals (`ℚ`), standing for the Python
  floats; the pipelines only compare, add and subtract them.
* Pixeltable tables are lists of records; `insert` appends, `update` maps,
  `delete` filters.  The frames / audio-chunks views cascade on base-row
  deletion, as Pixeltable views of the video table do.
* External effects (embedding models, ffmpeg, the filesystem) enter the
  model as function parameters or as `Except` outcomes.
* Fallible Python code is modelled with `Except PyErr`; a bare list index
  `xs[0]` on a possibly-empty list is modelled with `List.head?` (where
  `none` stands for the `IndexError`).
-/

/-- Status column of the global video table
(`video_processor.py`, `class VideoStatus`). -/
inductive VideoStatus where
  | processing
  | done
  | failed
deriving DecidableEq, Repr

/-- One row of the global video table (catalog).  Columns as created in
`VideoProcessor._ensure_dirs_and_tables_exist`; the `processed_at`
timestamp is not modelled (no claim mentions it). -/
structure VideoRecord where
  video_id : String
  video_path : String
  video_name : String
  status : VideoStatus
deriving DecidableEq, Repr

/-- One row of the frames view: a sampled frame of some catalog video.
`frame` abstracts the image payload, `pos_msec` is the frame position in
milliseconds, `caption` the generated caption. -/
structure FrameRow where
  video_id : String
  pos_msec : ℚ
  frame : Nat
  caption : String
deriving DecidableEq, Repr

/-- One row of the audio-chunks view: a transcribed audio chunk of some
catalog video. -/
structure AudioRow where
  video_id : String
  start_time_sec : ℚ
  end_time_sec : ℚ
  audio_chunk_text : String
deriving DecidableEq, Repr

/-- The persistent Pixeltable state the pipeline mutates: the video table
and the two segment stores (frames view, audio-chunks view). -/
structure ProcState where
  catalog : List VideoRecord
  frames : List FrameRow
  audio : List AudioRow
deriving DecidableEq, Repr

/-- State before any video has been ingested. -/
def initialState : ProcState := ⟨[], [], []⟩

/-- `VideoProcessor._cleanup_video`: delete every video-table row whose
`video_id` matches; the frames and audio views are views of the video
table, so their rows for that video cascade away with the base rows. -/
def cleanupVideo (videoId : String) (s : ProcState) : ProcState :=
  { catalog := s.catalog.filter (fun r => !(r.video_id == videoId))
    frames := s.frames.filter (fun g => !(g.video_id == videoId))
    audio := s.audio.filter (fun a => !(a.video_id == videoId)) }

/-- Step 7 of `VideoProcessor.add_video`: insert a fresh catalog row with
status `processing`; the computed view columns materialise the frame and
audio rows for the new video (their payloads come from the external
frame sampler / transcriber, so they are parameters here; every view row
carries the new video's id). -/
def insertVideo (videoId videoPath videoName : String)
    (framePayloads : List (ℚ × Nat × String))
    (audioPayloads : List (ℚ × ℚ × String)) (s : ProcState) : ProcState :=
  { catalog := s.catalog ++ [⟨videoId, videoPath, videoName, .processing⟩]
    frames := s.frames ++ framePayloads.map
      (fun p => ⟨videoId, p.1, p.2.1, p.2.2⟩)
    audio := s.audio ++ audioPayloads.map
      (fun p => ⟨videoId, p.1, p.2.1, p.2.2⟩) }

/-- `VideoProcessor._mark_done`: update status to `done` on every catalog
row whose `video_id` matches. -/
def markDone (videoId : String) (s : ProcState) : ProcState :=
  { s with catalog := s.catalog.map fun r =>
      if r.video_id == videoId then { r with status := .done } else r }

/-- `VideoProcessor._mark_failed`: update status to `failed` on every
catalog row whose `video_id` matches (a no-op when no row matches). -/
def markFailed (videoId : String) (s : ProcState) : ProcState :=
  { s with catalog := s.catalog.map fun r =>
      if r.video_id == videoId then { r with status := .failed } else r }

/-- `VideoProcessor._is_already_added`: the first catalog row carrying
this display name exists and has status `done`. -/
def isAlreadyAdded (videoName : String) (catalog : List VideoRecord) : Bool :=
  match catalog.find? (fun r => r.video_name == videoName) with
  | none => false
  | some r => r.status == VideoStatus.done

/-- `VideoProcessor.add_video`.  `validFile` / `validFormat` are the
outcomes of `_validate_video_file` / `_validate_video_format` (filesystem
and codec checks, external to the model); `videoName` is
`Path(video_path).stem`.  `failDuringProcessing` injects the exception of
the `except` branch at the only point of the model where work happens
after the record is registered (between the insert of step 7 and
`_mark_done` of step 8); on that path the code runs `_cleanup_video`
for the fresh id and then, best-effort, `_mark_failed`. -/
def addVideo (s : ProcState) (videoPath videoName videoId : String)
    (validFile validFormat : Bool)
    (framePayloads : List (ℚ × Nat × String))
    (audioPayloads : List (ℚ × ℚ × String))
    (failDuringProcessing : Bool) : Bool × ProcState :=
  if !validFile then (false, s)
  else if !validFormat then (false, s)
  else if isAlreadyAdded videoName s.catalog then (true, s)
  else
    let s1 := match s.catalog.find? (fun r => r.video_name == videoName) with
      | some old => cleanupVideo old.video_id s
      | none => s
    let s2 := insertVideo videoId videoPath videoName framePayloads audioPayloads s1
    if failDuringProcessing then
      (false, markFailed videoId (cleanupVideo videoId s2))
    else
      (true, markDone videoId s2)

/-- `VideoProcessor.delete_video`: empty id → `False`; unknown id →
`False`; otherwise delete via `_cleanup_video` and return `True`. -/
def deleteVideo (s : ProcState) (videoId : String) : Bool × ProcState :=
  if videoId == "" then (false, s)
  else match s.catalog.find? (fun r => r.video_id == videoId) with
    | none => (false, s)
    | some _ => (true, cleanupVideo videoId s)

/-- A pipeline operation on the persistent state: an `add_video` run or a
`delete_video` call (searches do not mutate state). -/
inductive PipeOp where
  | add (videoPath videoName videoId : String)
      (validFile validFormat : Bool)
      (framePayloads : List (ℚ × Nat × String))
      (audioPayloads : List (ℚ × ℚ × String))
      (failDuringProcessing : Bool)
  | del (videoId : String)

/-- State transformer of one pipeline operation. -/
def applyOp (s : ProcState) (op : PipeOp) : ProcState :=
  match op with
  | .add p n i vf vfmt fp ap fl => (addVideo s p n i vf vfmt fp ap fl).2
  | .del i => (deleteVideo s i).2

/-- Run a sequence of pipeline operations from a starting state. -/
def runOps (s : ProcState) (ops : List PipeOp) : ProcState :=
  ops.foldl applyOp s

/-- No two catalog rows share a display name. -/
def NameUnique (catalog : List VideoRecord) : Prop :=
  catalog.Pairwise (fun a b => a.video_name ≠ b.video_name)

/-- No catalog row has status `failed`. -/
def NoFailed (catalog : List VideoRecord) : Prop :=
  ∀ r ∈ catalog, r.status ≠ VideoStatus.failed

/-- Stable insertion of an element into a list sorted by the Boolean
comparison `le` (model of the stable `order_by` of Pixeltable). -/
def orderedInsertB {α : Type} (le : α → α → Bool) (a : α) : List α → List α
  | [] => [a]
  | b :: l => if le a b then a :: b :: l else b :: orderedInsertB le a l

/-- Stable sort by the Boolean comparison `le`: the model of
`results.order_by(sims, asc=False)` (Pixeltable sorts are stable; ties
keep insertion order). -/
def insertionSortB {α : Type} (le : α → α → Bool) : List α → List α
  | [] => []
  | a :: l => orderedInsertB le a (insertionSortB le l)

/-! ### Search engine (`search_video.py`) and settings (`config.py`) -/

/-- `Settings.DELTA_SECONDS_FRAME_INTERVAL` default: half-width, in
seconds, of the clip window built around a frame position. -/
def DELTA_SECONDS_FRAME_INTERVAL : ℚ := 5

/-- `Settings.QUESTION_ANSWER_TOP_K` default. -/
def QUESTION_ANSWER_TOP_K : Nat := 3

/-- `Settings.VIDEO_CLIP_SPEECH_SEARCH_TOP_K` default. -/
def VIDEO_CLIP_SPEECH_SEARCH_TOP_K : Nat := 1

/-- `Settings.VIDEO_CLIP_CAPTION_SEARCH_TOP_K` default. -/
def VIDEO_CLIP_CAPTION_SEARCH_TOP_K : Nat := 1

/-- Python truthiness of the `video_ids: Optional[List[str]]` argument:
`if video_ids:` is false for `None` and for the empty list. -/
def truthyIds (videoIds : Option (List String)) : Bool :=
  match videoIds with
  | none => false
  | some l => !l.isEmpty

/-- A search result carrying a clip time window, as returned by
`search_by_speech` / `search_by_image` / `search_by_caption`. -/
structure ClipHit where
  video_id : String
  start_time : ℚ
  end_time : ℚ
  similarity : ℚ
deriving DecidableEq, Repr

/-- A result of `get_speech_info` / `get_caption_info`: text content plus
provenance and score. -/
structure InfoHit where
  video_id : String
  text : String
  similarity : ℚ
deriving DecidableEq, Repr

/-- `VideoSearchEngine.search_by_speech`: score all audio chunks against
the query (the sentence-transformer similarity is the external function
`simf`, applied to the `audio_chunk_text` column), optionally restrict to
`video_ids`, order by similarity descending (Pixeltable order is stable,
so the stable `insertionSortB` matches), take `top_k`, and project to
result dicts. -/
def searchBySpeech (simf : String → ℚ) (view : List AudioRow) (topK : Nat)
    (videoIds : Option (List String)) : List ClipHit :=
  let results :=
    if truthyIds videoIds then
      view.filter (fun r => (videoIds.getD []).contains r.video_id)
    else view
  let results := insertionSortB
    (fun a b => decide (simf b.audio_chunk_text ≤ simf a.audio_chunk_text)) results
  (results.take topK).map fun r =>
    ⟨r.video_id, r.start_time_sec, r.end_time_sec, simf r.audio_chunk_text⟩

/-- `VideoSearchEngine.search_by_image`: score all frames against the
query image (CLIP similarity = external `imgf` on the `frame` column),
optional `video_ids` restriction, order descending, take `top_k`; the
clip window is `pos_msec/1000 ± delta` (no clamping). -/
def searchByImage (imgf : Nat → ℚ) (view : List FrameRow) (topK : Nat)
    (videoIds : Option (List String)) (delta : ℚ) : List ClipHit :=
  let results :=
    if truthyIds videoIds then
      view.filter (fun r => (videoIds.getD []).contains r.video_id)
    else view
  let results := insertionSortB
    (fun a b => decide (imgf b.frame ≤ imgf a.frame)) results
  (results.take topK).map fun r =>
    ⟨r.video_id, r.pos_msec / 1000 - delta, r.pos_msec / 1000 + delta, imgf r.frame⟩

/-- `VideoSearchEngine.search_by_caption`: like `search_by_image` but the
score is text similarity of the `caption` column. -/
def searchByCaption (capf : String → ℚ) (view : List FrameRow) (topK : Nat)
    (videoIds : Option (List String)) (delta : ℚ) : List ClipHit :=
  let results :=
    if truthyIds videoIds then
      view.filter (fun r => (videoIds.getD []).contains r.video_id)
    else view
  let results := insertionSortB
    (fun a b => decide (capf b.caption ≤ capf a.caption)) results
  (results.take topK).map fun r =>
    ⟨r.video_id, r.pos_msec / 1000 - delta, r.pos_msec / 1000 + delta, capf r.caption⟩

/-- `VideoSearchEngine.get_speech_info`: top audio chunks with their
transcript text. -/
def getSpeechInfo (simf : String → ℚ) (view : List AudioRow) (topK : Nat)
    (videoIds : Option (List String)) : List InfoHit :=
  let results :=
    if truthyIds videoIds then
      view.filter (fun r => (videoIds.getD []).contains r.video_id)
    else view
  let results := insertionSortB
    (fun a b => decide (simf b.audio_chunk_text ≤ simf a.audio_chunk_text)) results
  (results.take topK).map fun r =>
    ⟨r.video_id, r.audio_chunk_text, simf r.audio_chunk_text⟩

/-- `VideoSearchEngine.get_caption_info`: top frame captions with their
text. -/
def getCaptionInfo (capf : String → ℚ) (view : List FrameRow) (topK : Nat)
    (videoIds : Option (List String)) : List InfoHit :=
  let results :=
    if truthyIds videoIds then
      view.filter (fun r => (videoIds.getD []).contains r.video_id)
    else view
  let results := insertionSortB
    (fun a b => decide (capf b.caption ≤ capf a.caption)) results
  (results.take topK).map fun r =>
    ⟨r.video_id, r.caption, capf r.caption⟩

/-! ### Clip selection and tool-boundary error handling
(`clip_extractor.py`, `tools.py`) -/

/-- `VideoClipExtractor._select_best_clip`.  Python reads
`speech_results[0]["similarity"] if speech_results else 0` (same for
captions) and then returns
`speech_results[0] if speech_sim >= caption_sim else caption_results[0]`;
the bare `[0]` on a possibly-empty list is modelled with `List.head?`
(`none` = `IndexError`). -/
def selectBestClip (speechResults captionResults : List ClipHit) :
    Option ClipHit :=
  let speechSim := match speechResults with
    | [] => 0
    | h :: _ => h.similarity
  let captionSim := match captionResults with
    | [] => 0
    | h :: _ => h.similarity
  if captionSim ≤ speechSim then speechResults.head? else captionResults.head?

/-- Python exceptions that reach the boundaries modelled here:
`ValidationError`, `ClipExtractionError`, and every other `Exception`
subclass (`IOError`, Pixeltable faults, `IndexError`, ...). -/
inductive PyErr where
  | validation (msg : String)
  | clipExtraction (msg : String)
  | other
deriving DecidableEq, Repr

/-- Result type of the tool layer (`models.ToolResult`): a tagged
text-or-video payload. -/
inductive RKind where
  | text
  | video
deriving DecidableEq, Repr

/-- A `{type, content}` tool result. -/
structure ToolResult where
  rtype : RKind
  content : String
deriving DecidableEq, Repr

/-- Generic fallback message of the tool layer and of
`extract_from_text_query` / `extract_from_image`. -/
def genericErrorText : String :=
  "An unexpected error occurred. Please try again or contact support."

/-- Body of `VideoClipExtractor.extract_from_text_query` inside its
`try`: run both searches (their outcomes may be exceptions), report
"no match" when both are empty, otherwise select the best clip
(`none` = `IndexError`, re-thrown as a plain exception), resolve the
video path and extract the clip (both fallible, raising
`ClipExtractionError`). -/
def textQueryBody (speechOutcome captionOutcome : Except PyErr (List ClipHit))
    (getPath : String → Except PyErr String)
    (extractClip : String → ℚ → ℚ → Except PyErr String) :
    Except PyErr ToolResult := do
  let speechResults ← speechOutcome
  let captionResults ← captionOutcome
  if speechResults.isEmpty && captionResults.isEmpty then
    return ⟨.text, "No matching video segments found. Try rephrasing your query or check if videos are processed."⟩
  match selectBestClip speechResults captionResults with
  | none => throw .other
  | some best => do
      let path ← getPath best.video_id
      let rel ← extractClip path best.start_time best.end_time
      return ⟨.video, rel⟩

/-- The `except` clauses of `extract_from_text_query`: a
`ClipExtractionError` message is surfaced verbatim as text, every other
exception becomes the generic text message. -/
def extractFromTextQuery (speechOutcome captionOutcome : Except PyErr (List ClipHit))
    (getPath : String → Except PyErr String)
    (extractClip : String → ℚ → ℚ → Except PyErr String) : ToolResult :=
  match textQueryBody speechOutcome captionOutcome getPath extractClip with
  | .ok r => r
  | .error (.clipExtraction m) => ⟨.text, m⟩
  | .error _ => ⟨.text, genericErrorText⟩

/-- Body of `VideoClipExtractor.extract_from_image` inside its `try`. -/
def imageQueryBody (searchOutcome : Except PyErr (List ClipHit))
    (getPath : String → Except PyErr String)
    (extractClip : String → ℚ → ℚ → Except PyErr String) :
    Except PyErr ToolResult := do
  let results ← searchOutcome
  match results with
  | [] => return ⟨.text, "No visually similar video segments found. Try a different image or check if videos are processed."⟩
  | top :: _ => do
      let path ← getPath top.video_id
      let rel ← extractClip path top.start_time top.end_time
      return ⟨.video, rel⟩

/-- The `except` clauses of `extract_from_image`. -/
def extractFromImage (searchOutcome : Except PyErr (List ClipHit))
    (getPath : String → Except PyErr String)
    (extractClip : String → ℚ → ℚ → Except PyErr String) : ToolResult :=
  match imageQueryBody searchOutcome getPath extractClip with
  | .ok r => r
  | .error (.clipExtraction m) => ⟨.text, m⟩
  | .error _ => ⟨.text, genericErrorText⟩

/-- `VideoQuestionAnswerer._format_answer_with_sources`, entry names: for
each caption-info entry the video table is queried for the entry's
`video_id`; `lookupName` abstracts that query together with the
`video_result and "video_name" in video_result` guard, yielding `some
name` when the guard passes and the first `video_name` value is taken,
`none` when it fails (the code then appends `"Unknown"`). -/
def formatAnswerEntries (lookupName : String → Option String)
    (captionInfo : List InfoHit) : List (String × String) :=
  captionInfo.map fun en =>
    (match lookupName en.video_id with
      | some n => n
      | none => "Unknown", en.text)

/-- The answer string built by `_format_answer_with_sources`:
`"Video: <name>\nContent: <caption>"` blocks joined by blank lines. -/
def formatAnswerWithSources (lookupName : String → Option String)
    (captionInfo : List InfoHit) : String :=
  String.intercalate "\n\n"
    ((formatAnswerEntries lookupName captionInfo).map fun p =>
      "Video: " ++ p.1 ++ "\nContent: " ++ p.2)

/-- Message returned by `answer_question` when no captions match. -/
def noInfoText : String :=
  "No relevant information found in the videos. Try rephrasing your question or check if videos are processed."

/-- `VideoQuestionAnswerer.answer_question` on an already-computed
caption search outcome: exceptions degrade to a generic text message,
an empty result list yields the "no information" text, otherwise the
formatted answer is returned as text. -/
def answerQuestion (lookupName : String → Option String)
    (captionOutcome : Except PyErr (List InfoHit)) : ToolResult :=
  match captionOutcome with
  | .error _ => ⟨.text, "An unexpected error occurred while processing your question. Please try again."⟩
  | .ok captionInfo =>
    if captionInfo.isEmpty then ⟨.text, noInfoText⟩
    else ⟨.text, formatAnswerWithSources lookupName captionInfo⟩

/-! ### Tool layer (`tools.py`): catch-all boundaries -/

/-- The `except` clauses shared by the three user-facing tools in
`tools.py`: `ValidationError` → "Invalid input: ...", a
`ClipExtractionError` (failed lazy service initialization) → its message,
any other exception → the generic message. -/
def toolCatch (e : PyErr) : ToolResult :=
  match e with
  | .validation m => ⟨.text, "Invalid input: " ++ m⟩
  | .clipExtraction m => ⟨.text, m⟩
  | .other => ⟨.text, genericErrorText⟩

/-- `tools.get_video_clip_from_user_query`: validation and service
initialization may throw (the `body` outcome); on success the inner
extractor result is returned unchanged, on any exception the
corresponding text result is produced. -/
def getVideoClipFromUserQuery (body : Except PyErr ToolResult) : ToolResult :=
  match body with
  | .ok r => r
  | .error e => toolCatch e

/-- `tools.get_video_clip_from_image`: same boundary shape. -/
def getVideoClipFromImage (body : Except PyErr ToolResult) : ToolResult :=
  match body with
  | .ok r => r
  | .error e => toolCatch e

/-- `tools.ask_question_about_video`: same boundary shape except the
generic fallback message mentions the question. -/
def askQuestionAboutVideo (body : Except PyErr ToolResult) : ToolResult :=
  match body with
  | .ok r => r
  | .error (.validation m) => ⟨.text, "Invalid input: " ++ m⟩
  | .error (.clipExtraction m) => ⟨.text, m⟩
  | .error .other => ⟨.text, "An unexpected error occurred while processing your question. Please try again."⟩

/-- `tools.process_video`: validation errors and every other exception
are converted to `False`; a completed `add_video` run reports its
boolean. -/
def processVideo (body : Except PyErr Bool) : Bool :=
  match body with
  | .ok b => b
  | .error _ => false

/-- `tools.delete_video`: validation errors and every other exception
are converted to `False`. -/
def deleteVideoTool (body : Except PyErr Bool) : Bool :=
  match body with
  | .ok b => b
  | .error _ => false

/-! ### Helper lemmas -/

/-- In a catalog without duplicate display names, the lookup by name used
by `_is_already_added` finds exactly the member carrying that name. -/
lemma find_name_of_nameUnique {cat : List VideoRecord} {r : VideoRecord}
    {n : String} (hu : NameUnique cat) (hr : r ∈ cat) (hn : r.video_name = n) :
    cat.find? (fun x => x.video_name == n) = some r := by
  induction cat with
  | nil => cases hr
  | cons a t ih =>
    rcases List.mem_cons.mp hr with rfl | hr
    · rw [List.find?_cons_of_pos]
      simp [hn]
    · have hat := List.pairwise_cons.mp hu
      have ha : a.video_name ≠ n := by
        have := hat.1 r hr
        simpa [hn] using this
      rw [List.find?_cons_of_neg]
      · exact ih hat.2 hr
      · simp [ha]
    
/-- Membership in an `orderedInsertB` result. -/
lemma mem_orderedInsertB {α : Type} {le : α → α → Bool} {a b : α}
    {l : List α} : b ∈ orderedInsertB le a l ↔ b = a ∨ b ∈ l := by
  induction l with
  | nil => simp [orderedInsertB]
  | cons c t ih =>
    by_cases h : le a c
    · simp [orderedInsertB, h]
    · simp only [orderedInsertB, if_neg h, List.mem_cons, ih]
      tauto

/-- `insertionSortB` permutes the list, so membership is preserved. -/
lemma mem_insertionSortB {α : Type} {le : α → α → Bool} {a : α}
    {l : List α} : a ∈ insertionSortB le l ↔ a ∈ l := by
  induction l with
  | nil => simp [insertionSortB]
  | cons b t ih =>
    simp [insertionSortB, mem_orderedInsertB, ih]

/-- `orderedInsertB` grows the length by one. -/
lemma length_orderedInsertB {α : Type} (le : α → α → Bool) (a : α)
    (l : List α) : (orderedInsertB le a l).length = l.length + 1 := by
  induction l with
  | nil => rfl
  | cons c t ih =>
    by_cases h : le a c
    · simp [orderedInsertB, h]
    · simp [orderedInsertB, h, ih]

/-- `insertionSortB` preserves the length. -/
lemma length_insertionSortB {α : Type} (le : α → α → Bool) (l : List α) :
    (insertionSortB le l).length = l.length := by
  induction l with
  | nil => rfl
  | cons b t ih =>
    simp [insertionSortB, length_orderedInsertB, ih]

/-- Inserting into a `le`-sorted list keeps it sorted, for a total
transitive Boolean comparison. -/
lemma pairwise_orderedInsertB {α : Type} {le : α → α → Bool}
    (htot : ∀ a b, le a b || le b a)
    (htrans : ∀ a b c, le a b = true → le b c = true → le a c = true)
    (a : α) {l : List α} (hl : l.Pairwise fun x y => le x y = true) :
    (orderedInsertB le a l).Pairwise fun x y => le x y = true := by
  induction l with
  | nil => simp [orderedInsertB]
  | cons b t ih =>
    obtain ⟨hb, ht⟩ := List.pairwise_cons.mp hl
    by_cases h : le a b
    · rw [orderedInsertB, if_pos h]
      refine List.pairwise_cons.mpr ⟨?_, hl⟩
      intro y hy
      rcases List.mem_cons.mp hy with rfl | hy
      · exact h
      · exact htrans a b y h (hb y hy)
    · rw [orderedInsertB, if_neg h]
      refine List.pairwise_cons.mpr ⟨?_, ih ht⟩
      intro y hy
      rcases mem_orderedInsertB.mp hy with h1 | hy
      · subst h1
        have h2 := htot y b
        simp only [Bool.or_eq_true] at h2
        rcases h2 with h2 | h2
        · exact absurd h2 h
        · exact h2
      · exact hb y hy

/-- The result of `insertionSortB` is sorted, for a total transitive
Boolean comparison. -/
lemma pairwise_insertionSortB {α : Type} {le : α → α → Bool}
    (htot : ∀ a b, le a b || le b a)
    (htrans : ∀ a b c, le a b = true → le b c = true → le a c = true)
    (l : List α) :
    (insertionSortB le l).Pairwise fun x y => le x y = true := by
  induction l with
  | nil => simp [insertionSortB]
  | cons b t ih =>
    exact pairwise_orderedInsertB htot htrans b ih

/-- A member of `take k (insertionSortB le (filter p l))` is a member of
`l` satisfying `p`. -/
lemma mem_take_sort_filter {α : Type} {l : List α} {p : α → Bool}
    {le : α → α → Bool} {k : Nat} {a : α}
    (h : a ∈ (insertionSortB le (l.filter p)).take k) : a ∈ l ∧ p a := by
  have h1 : a ∈ insertionSortB le (l.filter p) := List.mem_of_mem_take h
  have h2 : a ∈ l.filter p := mem_insertionSortB.mp h1
  exact List.mem_filter.mp h2

/-- A member of `take k (insertionSortB le l)` is a member of `l`. -/
lemma mem_take_sort {α : Type} {l : List α} {le : α → α → Bool}
    {k : Nat} {a : α} (h : a ∈ (insertionSortB le l).take k) : a ∈ l :=
  mem_insertionSortB.mp (List.mem_of_mem_take h)

/-- After `_cleanup_video`, no catalog row carries the purged id. -/
lemma cleanup_catalog_no_id (videoId : String) (s : ProcState) :
    ∀ r ∈ (cleanupVideo videoId s).catalog, r.video_id ≠ videoId := by
  intro r hr
  have := List.of_mem_filter hr
  simpa using this

/-- After `_cleanup_video`, no frame row carries the purged id. -/
lemma cleanup_frames_no_id (videoId : String) (s : ProcState) :
    ∀ g ∈ (cleanupVideo videoId s).frames, g.video_id ≠ videoId := by
  intro g hg
  have := List.of_mem_filter hg
  simpa using this

/-- After `_cleanup_video`, no audio row carries the purged id. -/
lemma cleanup_audio_no_id (videoId : String) (s : ProcState) :
    ∀ a ∈ (cleanupVideo videoId s).audio, a.video_id ≠ videoId := by
  intro a ha
  have := List.of_mem_filter ha
  simpa using this

/-- Mapping a function that fixes every member is the identity. -/
lemma map_id_of_forall {α : Type} {f : α → α} :
    ∀ {l : List α}, (∀ x ∈ l, f x = x) → l.map f = l := by
  intro l h
  induction l with
  | nil => rfl
  | cons a t ih =>
    simp only [List.map_cons, h a (by simp)]
    rw [ih fun x hx => h x (by simp [hx])]

/-- `_mark_failed` is the identity on a state with no row for the id. -/
lemma markFailed_of_no_id {videoId : String} {s : ProcState}
    (h : ∀ r ∈ s.catalog, r.video_id ≠ videoId) : markFailed videoId s = s := by
  unfold markFailed
  have hm : s.catalog.map (fun r =>
      if r.video_id == videoId then { r with status := .failed } else r) =
      s.catalog :=
    map_id_of_forall fun r hr => by rw [if_neg (by simpa using h r hr)]
  rw [hm]

/-! ### Claim C7 -/

/-- Claim C7: `delete_video` on a `video_id` with no catalog row
(including the empty id) returns `False` and leaves the catalog and both
segment stores untouched. -/
theorem deleteUnknownVideoNoOp (s : ProcState) (videoId : String)
    (h : ∀ r ∈ s.catalog, r.video_id ≠ videoId) :
    deleteVideo s videoId = (false, s) := by
  unfold deleteVideo
  by_cases he : videoId == ""
  · simp [he]
  · have : s.catalog.find? (fun r => r.video_id == videoId) = none := by
      rw [List.find?_eq_none]
      intro r hr
      simp [h r hr]
    simp [he, this]

/-- Witness for C7: deleting the unknown id `"nope"` from a one-video
catalog returns `False` and changes nothing. -/
theorem deleteUnknownVideoNoOpWitness :
    deleteVideo ⟨[⟨"id1", "p", "name1", .done⟩], [], []⟩ "nope" =
      (false, ⟨[⟨"id1", "p", "name1", .done⟩], [], []⟩) :=
  deleteUnknownVideoNoOp _ "nope" (by decide)

/-! ### Claim C3 -/

/-- Claim C3: when the catalog (with no duplicate display names, an
invariant of the pipeline) holds a record with the ingested file's
display name and status `done`, `add_video` returns `True` and the whole
state — catalog and both segment stores — is unchanged. -/
theorem doneNameIngestIsNoOp (s : ProcState)
    (videoPath videoName videoId : String)
    (framePayloads : List (ℚ × Nat × String))
    (audioPayloads : List (ℚ × ℚ × String)) (fl : Bool)
    (hu : NameUnique s.catalog)
    (hdone : ∃ r ∈ s.catalog, r.video_name = videoName ∧ r.status = .done) :
    addVideo s videoPath videoName videoId true true framePayloads
      audioPayloads fl = (true, s) := by
  obtain ⟨r, hr, hn, hs⟩ := hdone
  have hfind := find_name_of_nameUnique hu hr hn
  have : isAlreadyAdded videoName s.catalog = true := by
    simp [isAlreadyAdded, hfind, hs]
  simp [addVideo, this]

/-- Witness for C3: re-ingesting `name1` while its record is `done` is a
no-op returning `True`. -/
theorem doneNameIngestIsNoOpWitness :
    addVideo ⟨[⟨"id1", "p", "name1", .done⟩], [⟨"id1", 7000, 3, "cap"⟩],
        [⟨"id1", 0, 10, "txt"⟩]⟩ "p2" "name1" "id2" true true [] [] false =
      (true, ⟨[⟨"id1", "p", "name1", .done⟩], [⟨"id1", 7000, 3, "cap"⟩],
        [⟨"id1", 0, 10, "txt"⟩]⟩) :=
  doneNameIngestIsNoOp _ "p2" "name1" "id2" [] [] false
    (by simp [NameUnique])
    ⟨⟨"id1", "p", "name1", .done⟩, by simp, rfl, rfl⟩

/-! ### Claim C2 -/

/-- Claim C2: when an exception aborts an `add_video` run after the
record was registered (the run got past `_is_already_added`, inserted the
`processing` row, and then failed), the run reports `False`, and the
final state carries no catalog row, no frame row and no audio row for
that `video_id` — in particular the catalog "has no row or a row with
status `failed`" for it.  The best-effort `_mark_failed` runs after
`_cleanup_video` already removed the row, so the no-row disjunct is the
one that holds. -/
theorem failedRunPurgesState (s : ProcState)
    (videoPath videoName videoId : String)
    (framePayloads : List (ℚ × Nat × String))
    (audioPayloads : List (ℚ × ℚ × String))
    (hnew : isAlreadyAdded videoName s.catalog = false) :
    (addVideo s videoPath videoName videoId true true framePayloads
        audioPayloads true).1 = false ∧
    ((∀ r ∈ (addVideo s videoPath videoName videoId true true framePayloads
        audioPayloads true).2.catalog, r.video_id ≠ videoId) ∨
     (∀ r ∈ (addVideo s videoPath videoName videoId true true framePayloads
        audioPayloads true).2.catalog,
        r.video_id = videoId → r.status = .failed)) ∧
    (∀ g ∈ (addVideo s videoPath videoName videoId true true framePayloads
        audioPayloads true).2.frames, g.video_id ≠ videoId) ∧
    (∀ a ∈ (addVideo s videoPath videoName videoId true true framePayloads
        audioPayloads true).2.audio, a.video_id ≠ videoId) := by
  have hstate : (addVideo s videoPath videoName videoId true true framePayloads
      audioPayloads true).2 =
      markFailed videoId (cleanupVideo videoId
        (insertVideo videoId videoPath videoName framePayloads audioPayloads
          (match s.catalog.find? (fun r => r.video_name == videoName) with
            | some old => cleanupVideo old.video_id s
            | none => s))) := by
    simp [addVideo, hnew]
  set s2 := insertVideo videoId videoPath videoName framePayloads audioPayloads
      (match s.catalog.find? (fun r => r.video_name == videoName) with
        | some old => cleanupVideo old.video_id s
        | none => s) with hs2
  have hfix : markFailed videoId (cleanupVideo videoId s2) =
      cleanupVideo videoId s2 :=
    markFailed_of_no_id (cleanup_catalog_no_id videoId s2)
  refine ⟨by simp [addVideo, hnew], ?_, ?_, ?_⟩
  · left
    rw [hstate, hfix]
    exact cleanup_catalog_no_id videoId s2
  · rw [hstate, hfix]
    exact cleanup_frames_no_id videoId s2
  · rw [hstate, hfix]
    exact cleanup_audio_no_id videoId s2

/-- Witness for C2: a failing run on the fresh name `name2` over a
one-video catalog reports `False` and leaves no state for the new id. -/
theorem failedRunPurgesStateWitness :
    ((addVideo ⟨[⟨"id1", "p", "name1", .done⟩], [], []⟩ "p2" "name2" "id2"
        true true [(1000, 2, "c2")] [(0, 10, "t2")] true).1 = false) ∧
    ((∀ r ∈ (addVideo ⟨[⟨"id1", "p", "name1", .done⟩], [], []⟩ "p2" "name2"
        "id2" true true [(1000, 2, "c2")] [(0, 10, "t2")] true).2.catalog,
      r.video_id ≠ "id2") ∨
    (∀ r ∈ (addVideo ⟨[⟨"id1", "p", "name1", .done⟩], [], []⟩ "p2" "name2"
        "id2" true true [(1000, 2, "c2")] [(0, 10, "t2")] true).2.catalog,
      r.video_id = "id2" → r.status = .failed)) := by
  have h := failedRunPurgesState ⟨[⟨"id1", "p", "name1", .done⟩], [], []⟩
    "p2" "name2" "id2" [(1000, 2, "c2")] [(0, 10, "t2")] (by decide)
  exact ⟨h.1, h.2.1⟩

/-! ### Claim C1 -/

/-- The sole caption hit of the C1 counterexample: a negative top
similarity (cosine similarity of the text embeddings may be negative). -/
def c1CaptionHit : ClipHit := ⟨"v", 0, 10, -1⟩

/-- Counterexample to claim C1 as stated: with an empty speech result
list and a single caption hit of similarity `-1`, the claim says the
caption-derived segment is the one chosen (its signal is the only one
with a top score), but `_select_best_clip` compares the caption score
against the implicit `0` of the empty speech list, takes the speech
branch, and evaluates `speech_results[0]` on an empty list — an
`IndexError` (`none` here), so no segment is chosen at all. -/
theorem selectBestClipClaimCex :
    selectBestClip [] [c1CaptionHit] = none ∧
    selectBestClip [] [c1CaptionHit] ≠ some c1CaptionHit := by
  constructor
  · decide
  · decide

/-- Claim C1 as amended: when both signals are non-empty, the segment
with the strictly greater top similarity is chosen and a tie goes to the
speech signal; when exactly one signal is non-empty, its top segment is
chosen only if the comparison against the implicit score `0` of the
empty signal favours it (a sole speech top needs score `≥ 0`, a sole
caption top needs score `> 0`) — otherwise the selection evaluates
`[0]` on the empty list and raises (`none`). -/
theorem selectBestClipAmended (speechResults captionResults : List ClipHit)
    (hs hc : ClipHit) :
    ((speechResults.head? = some hs → captionResults.head? = some hc →
      ((hc.similarity ≤ hs.similarity →
          selectBestClip speechResults captionResults = some hs) ∧
       (hs.similarity < hc.similarity →
          selectBestClip speechResults captionResults = some hc)))) ∧
    ((speechResults = [] → captionResults.head? = some hc →
      ((0 < hc.similarity →
          selectBestClip speechResults captionResults = some hc) ∧
       (hc.similarity ≤ 0 →
          selectBestClip speechResults captionResults = none)))) ∧
    ((captionResults = [] → speechResults.head? = some hs →
      ((0 ≤ hs.similarity →
          selectBestClip speechResults captionResults = some hs) ∧
       (hs.similarity < 0 →
          selectBestClip speechResults captionResults = none)))) := by
  refine ⟨?_, ?_, ?_⟩
  · intro hsh hch
    cases speechResults with
    | nil => simp at hsh
    | cons a st =>
      cases captionResults with
      | nil => simp at hch
      | cons b ct =>
        simp only [List.head?] at hsh hch
        obtain rfl : a = hs := by injection hsh
        obtain rfl : b = hc := by injection hch
        constructor
        · intro hle
          simp [selectBestClip, hle]
        · intro hlt
          simp [selectBestClip, not_le.mpr hlt]
  · rintro rfl hch
    cases captionResults with
    | nil => simp at hch
    | cons b ct =>
      simp only [List.head?] at hch
      obtain rfl : b = hc := by injection hch
      constructor
      · intro hpos
        simp [selectBestClip, not_le.mpr hpos]
      · intro hnonpos
        simp [selectBestClip, hnonpos]
  · rintro rfl hsh
    cases speechResults with
    | nil => simp at hsh
    | cons a st =>
      simp only [List.head?] at hsh
      obtain rfl : a = hs := by injection hsh
      constructor
      · intro hpos
        simp [selectBestClip, hpos]
      · intro hneg
        simp [selectBestClip, not_le.mpr hneg, le_of_lt hneg]

/-- Witness for the amended C1, scenario C of the spec: caption top score
`0.81` beats speech top score `0.76`, so the caption-derived segment is
the one selected. -/
theorem selectBestClipAmendedWitness :
    selectBestClip [⟨"a", 0, 1, 76/100⟩] [⟨"c", 5, 6, 81/100⟩] =
      some ⟨"c", 5, 6, 81/100⟩ :=
  ((selectBestClipAmended [⟨"a", 0, 1, 76/100⟩] [⟨"c", 5, 6, 81/100⟩]
      ⟨"a", 0, 1, 76/100⟩ ⟨"c", 5, 6, 81/100⟩).1 rfl rfl).2 (by norm_num)

/-! ### Claim C4 -/

/-- Claim C4: for each of the five search operations, a non-empty
`video_ids` scope only ever yields results whose `video_id` belongs to
the scope; an empty or absent scope applies no filter (the two are the
same pipeline over the full index); and scoping commutes with the
ranking pipeline — a scoped search equals the unscoped search run on the
index restricted to the scope, so ranking and tie-breaking are untouched
by scoping. -/
theorem videoIdScoping (simf capf : String → ℚ) (imgf : Nat → ℚ)
    (audioView : List AudioRow) (frameView : List FrameRow)
    (topK : Nat) (delta : ℚ) (ids : List String) :
    (ids ≠ [] →
      (∀ h ∈ searchBySpeech simf audioView topK (some ids),
          h.video_id ∈ ids) ∧
      (∀ h ∈ searchByImage imgf frameView topK (some ids) delta,
          h.video_id ∈ ids) ∧
      (∀ h ∈ searchByCaption capf frameView topK (some ids) delta,
          h.video_id ∈ ids) ∧
      (∀ h ∈ getSpeechInfo simf audioView topK (some ids),
          h.video_id ∈ ids) ∧
      (∀ h ∈ getCaptionInfo capf frameView topK (some ids),
          h.video_id ∈ ids)) ∧
    (searchBySpeech simf audioView topK (some []) =
        searchBySpeech simf audioView topK none ∧
      searchByImage imgf frameView topK (some []) delta =
        searchByImage imgf frameView topK none delta ∧
      searchByCaption capf frameView topK (some []) delta =
        searchByCaption capf frameView topK none delta ∧
      getSpeechInfo simf audioView topK (some []) =
        getSpeechInfo simf audioView topK none ∧
      getCaptionInfo capf frameView topK (some []) =
        getCaptionInfo capf frameView topK none) ∧
    (ids ≠ [] →
      (searchBySpeech simf audioView topK (some ids) =
        searchBySpeech simf
          (audioView.filter fun r => ids.contains r.video_id) topK none ∧
      searchByImage imgf frameView topK (some ids) delta =
        searchByImage imgf
          (frameView.filter fun r => ids.contains r.video_id) topK none delta ∧
      searchByCaption capf frameView topK (some ids) delta =
        searchByCaption capf
          (frameView.filter fun r => ids.contains r.video_id) topK none delta ∧
      getSpeechInfo simf audioView topK (some ids) =
        getSpeechInfo simf
          (audioView.filter fun r => ids.contains r.video_id) topK none ∧
      getCaptionInfo capf frameView topK (some ids) =
        getCaptionInfo capf
          (frameView.filter fun r => ids.contains r.video_id) topK none)) := by
  have htruthy : truthyIds (some ids) = !ids.isEmpty := rfl
  refine ⟨?_, ?_, ?_⟩
  · intro hne
    have hids : truthyIds (some ids) = true := by
      simp [htruthy, List.isEmpty_iff, hne]
    refine ⟨?_, ?_, ?_, ?_, ?_⟩
    · intro h hh
      simp only [searchBySpeech, hids, if_pos] at hh
      obtain ⟨r, hr, rfl⟩ := List.mem_map.mp hh
      have := (mem_take_sort_filter hr).2
      simpa using this
    · intro h hh
      simp only [searchByImage, hids, if_pos] at hh
      obtain ⟨r, hr, rfl⟩ := List.mem_map.mp hh
      have := (mem_take_sort_filter hr).2
      simpa using this
    · intro h hh
      simp only [searchByCaption, hids, if_pos] at hh
      obtain ⟨r, hr, rfl⟩ := List.mem_map.mp hh
      have := (mem_take_sort_filter hr).2
      simpa using this
    · intro h hh
      simp only [getSpeechInfo, hids, if_pos] at hh
      obtain ⟨r, hr, rfl⟩ := List.mem_map.mp hh
      have := (mem_take_sort_filter hr).2
      simpa using this
    · intro h hh
      simp only [getCaptionInfo, hids, if_pos] at hh
      obtain ⟨r, hr, rfl⟩ := List.mem_map.mp hh
      have := (mem_take_sort_filter hr).2
      simpa using this
  · refine ⟨?_, ?_, ?_, ?_, ?_⟩ <;>
      simp [searchBySpeech, searchByImage, searchByCaption, getSpeechInfo,
        getCaptionInfo, truthyIds]
  · intro hne
    have hids : truthyIds (some ids) = true := by
      simp [htruthy, List.isEmpty_iff, hne]
    refine ⟨?_, ?_, ?_, ?_, ?_⟩ <;>
      simp [searchBySpeech, searchByImage, searchByCaption, getSpeechInfo,
        getCaptionInfo, truthyIds, hids, hne]

/-- Query scores used by the C4 / C9 / C10 witnesses. -/
def simfW : String → ℚ
  | "alpha" => 3
  | "beta" => 5
  | _ => 1

/-- Image scores used by the C4 / C9 / C10 witnesses. -/
def imgfW : Nat → ℚ
  | 1 => 9
  | _ => 2

/-- Caption scores used by the C4 / C8 witnesses. -/
def capfW : String → ℚ
  | "a cat" => 2
  | _ => 7

/-- Audio view of the C4 witness. -/
def audioViewW : List AudioRow :=
  [⟨"v1", 0, 10, "alpha"⟩, ⟨"v2", 5, 15, "beta"⟩, ⟨"v1", 10, 20, "gamma"⟩]

/-- Frames view of the C4 / C8 / C9 / C10 witnesses. -/
def frameViewW : List FrameRow :=
  [⟨"v1", 1000, 1, "a cat"⟩, ⟨"v1", 7000, 2, "a dog"⟩,
   ⟨"v2", 3000, 5, "a bird"⟩, ⟨"v3", 0, 9, "a fish"⟩]

/-- Witness for C4: scoping the speech search to `["v1"]` equals the
unscoped search over the restricted index, and the top scoped hit
belongs to the scope. -/
theorem videoIdScopingWitness :
    (searchBySpeech simfW audioViewW 2 (some ["v1"]) =
      searchBySpeech simfW
        (audioViewW.filter fun r => ["v1"].contains r.video_id) 2 none) ∧
    (⟨"v1", 0, 10, 3⟩ : ClipHit).video_id ∈ ["v1"] := by
  have h := videoIdScoping simfW capfW imgfW audioViewW frameViewW 2
    DELTA_SECONDS_FRAME_INTERVAL ["v1"]
  refine ⟨(h.2.2 (by decide)).1, ?_⟩
  exact (h.1 (by decide)).1 ⟨"v1", 0, 10, 3⟩ (by decide)

/-! ### Claim C9 -/

/-- Claim C9: every result of the image-query search is built from some
frame of the index, and its clip window is exactly
`[pos_msec/1000 - delta, pos_msec/1000 + delta]` around that frame's
position, for the configured `delta`
(`DELTA_SECONDS_FRAME_INTERVAL`, default `5`); `extract_from_image`
then feeds `results[0]`'s window to the extractor unchanged. -/
theorem imageQueryWindow (imgf : Nat → ℚ) (frameView : List FrameRow)
    (topK : Nat) (videoIds : Option (List String)) (delta : ℚ)
    (h : ClipHit)
    (hh : h ∈ searchByImage imgf frameView topK videoIds delta) :
    ∃ row ∈ frameView, h.video_id = row.video_id ∧
      h.start_time = row.pos_msec / 1000 - delta ∧
      h.end_time = row.pos_msec / 1000 + delta ∧
      h.similarity = imgf row.frame := by
  simp only [searchByImage] at hh
  obtain ⟨r, hr, rfl⟩ := List.mem_map.mp hh
  refine ⟨r, ?_, rfl, rfl, rfl, rfl⟩
  by_cases ht : truthyIds videoIds
  · rw [if_pos ht] at hr
    exact (mem_take_sort_filter hr).1
  · rw [if_neg ht] at hr
    exact mem_take_sort hr

/-- Witness for C9, scenario D of the spec: an index holding one
visually close frame (score `9` at `pos_msec = 1000`) yields the clip
window `[1 - 5, 1 + 5]` around that frame. -/
theorem imageQueryWindowWitness :
    ∃ row ∈ frameViewW,
      (⟨"v1", -4, 6, 9⟩ : ClipHit).video_id = row.video_id ∧
      (⟨"v1", -4, 6, 9⟩ : ClipHit).start_time =
        row.pos_msec / 1000 - DELTA_SECONDS_FRAME_INTERVAL ∧
      (⟨"v1", -4, 6, 9⟩ : ClipHit).end_time =
        row.pos_msec / 1000 + DELTA_SECONDS_FRAME_INTERVAL ∧
      (⟨"v1", -4, 6, 9⟩ : ClipHit).similarity = imgfW row.frame :=
  imageQueryWindow imgfW frameViewW 1 none DELTA_SECONDS_FRAME_INTERVAL
    ⟨"v1", -4, 6, 9⟩ (by
      norm_num [searchByImage, frameViewW, truthyIds, insertionSortB,
        orderedInsertB, imgfW, DELTA_SECONDS_FRAME_INTERVAL])

/-! ### Claim C10 -/

/-- Claim C10 (implicit): the frame-based clip windows are never clipped
to the video's valid time range: both for the image search and for the
caption search, a hit built from a frame less than `delta` seconds into
the video has a strictly negative `start_time`
(`pos_msec/1000 - delta`, no clamping to `0`), and the `end_time`
exceeds any duration shorter than `pos_msec/1000 + delta`. -/
theorem frameWindowNoClamping (imgf : Nat → ℚ) (capf : String → ℚ)
    (frameView : List FrameRow) (topK : Nat)
    (videoIds : Option (List String)) (delta : ℚ) :
    (∀ h ∈ searchByImage imgf frameView topK videoIds delta,
      ∃ row ∈ frameView,
        h.start_time = row.pos_msec / 1000 - delta ∧
        h.end_time = row.pos_msec / 1000 + delta ∧
        (row.pos_msec / 1000 < delta → h.start_time < 0) ∧
        (∀ duration : ℚ, duration < row.pos_msec / 1000 + delta →
          duration < h.end_time)) ∧
    (∀ h ∈ searchByCaption capf frameView topK videoIds delta,
      ∃ row ∈ frameView,
        h.start_time = row.pos_msec / 1000 - delta ∧
        h.end_time = row.pos_msec / 1000 + delta ∧
        (row.pos_msec / 1000 < delta → h.start_time < 0) ∧
        (∀ duration : ℚ, duration < row.pos_msec / 1000 + delta →
          duration < h.end_time)) := by
  constructor
  · intro h hh
    simp only [searchByImage] at hh
    obtain ⟨r, hr, rfl⟩ := List.mem_map.mp hh
    have hrow : r ∈ frameView := by
      by_cases ht : truthyIds videoIds
      · rw [if_pos ht] at hr
        exact (mem_take_sort_filter hr).1
      · rw [if_neg ht] at hr
        exact mem_take_sort hr
    exact ⟨r, hrow, rfl, rfl, fun hlt => by simpa using sub_neg.mpr hlt,
      fun d hd => hd⟩
  · intro h hh
    simp only [searchByCaption] at hh
    obtain ⟨r, hr, rfl⟩ := List.mem_map.mp hh
    have hrow : r ∈ frameView := by
      by_cases ht : truthyIds videoIds
      · rw [if_pos ht] at hr
        exact (mem_take_sort_filter hr).1
      · rw [if_neg ht] at hr
        exact mem_take_sort hr
    exact ⟨r, hrow, rfl, rfl, fun hlt => by simpa using sub_neg.mpr hlt,
      fun d hd => hd⟩

/-- Witness for C10: a frame at `pos_msec = 1000` (1 second in, less
than the default `delta = 5`) produces a hit whose start is `-4 < 0`. -/
theorem frameWindowNoClampingWitness :
    ∃ row ∈ frameViewW,
      (⟨"v1", -4, 6, 9⟩ : ClipHit).start_time =
        row.pos_msec / 1000 - DELTA_SECONDS_FRAME_INTERVAL ∧
      (⟨"v1", -4, 6, 9⟩ : ClipHit).end_time =
        row.pos_msec / 1000 + DELTA_SECONDS_FRAME_INTERVAL ∧
      (row.pos_msec / 1000 < DELTA_SECONDS_FRAME_INTERVAL →
        (⟨"v1", -4, 6, 9⟩ : ClipHit).start_time < 0) ∧
      (∀ duration : ℚ,
        duration < row.pos_msec / 1000 + DELTA_SECONDS_FRAME_INTERVAL →
        duration < (⟨"v1", -4, 6, 9⟩ : ClipHit).end_time) :=
  (frameWindowNoClamping imgfW capfW frameViewW 1 none
      DELTA_SECONDS_FRAME_INTERVAL).1 ⟨"v1", -4, 6, 9⟩ (by
      norm_num [searchByImage, frameViewW, truthyIds, insertionSortB,
        orderedInsertB, imgfW, DELTA_SECONDS_FRAME_INTERVAL])

/-! ### Claim C8 -/

/-- The candidate set a scoped caption search ranks: the frames view,
restricted to `video_ids` when that argument is truthy. -/
def scopedFrames (frameView : List FrameRow)
    (videoIds : Option (List String)) : List FrameRow :=
  if truthyIds videoIds then
    frameView.filter (fun r => (videoIds.getD []).contains r.video_id)
  else frameView

/-- Claim C8: with the default `top_k = 3`, a question-answering query
over an index holding at least `3` matching captions returns exactly `3`
entries, in similarity-descending order; each entry pairs the caption
with its video's resolved display name (`"Unknown"` when the lookup
fails); an empty result set yields the "no information found" text, a
non-empty one the formatted answer — both plain text, never an error. -/
theorem questionAnswerFormat (capf : String → ℚ) (frameView : List FrameRow)
    (videoIds : Option (List String)) (lookupName : String → Option String) :
    (3 ≤ (scopedFrames frameView videoIds).length →
      (getCaptionInfo capf frameView QUESTION_ANSWER_TOP_K videoIds).length
        = 3) ∧
    (getCaptionInfo capf frameView QUESTION_ANSWER_TOP_K videoIds).Pairwise
      (fun a b => b.similarity ≤ a.similarity) ∧
    formatAnswerEntries lookupName
        (getCaptionInfo capf frameView QUESTION_ANSWER_TOP_K videoIds) =
      (getCaptionInfo capf frameView QUESTION_ANSWER_TOP_K videoIds).map
        (fun en => ((lookupName en.video_id).getD "Unknown", en.text)) ∧
    (getCaptionInfo capf frameView QUESTION_ANSWER_TOP_K videoIds = [] →
      answerQuestion lookupName
        (.ok (getCaptionInfo capf frameView QUESTION_ANSWER_TOP_K videoIds)) =
        ⟨.text, noInfoText⟩) ∧
    (getCaptionInfo capf frameView QUESTION_ANSWER_TOP_K videoIds ≠ [] →
      answerQuestion lookupName
        (.ok (getCaptionInfo capf frameView QUESTION_ANSWER_TOP_K videoIds)) =
        ⟨.text, formatAnswerWithSources lookupName
          (getCaptionInfo capf frameView QUESTION_ANSWER_TOP_K videoIds)⟩) := by
  have hpipe : getCaptionInfo capf frameView QUESTION_ANSWER_TOP_K videoIds =
      ((insertionSortB
          (fun a b => decide (capf b.caption ≤ capf a.caption))
          (scopedFrames frameView videoIds)).take QUESTION_ANSWER_TOP_K).map
        (fun r => ⟨r.video_id, r.caption, capf r.caption⟩) := rfl
  refine ⟨?_, ?_, ?_, ?_, ?_⟩
  · intro hlen
    rw [hpipe, List.length_map, List.length_take, length_insertionSortB]
    simpa [QUESTION_ANSWER_TOP_K] using hlen
  · rw [hpipe]
    rw [List.pairwise_map]
    have hsorted := @pairwise_insertionSortB FrameRow
      (fun a b : FrameRow => decide (capf b.caption ≤ capf a.caption))
      (fun a b => by
        simp only [Bool.or_eq_true, decide_eq_true_iff]
        exact le_total (capf b.caption) (capf a.caption))
      (fun a b c hab hbc => by
        simp only [decide_eq_true_iff] at hab hbc ⊢
        exact le_trans hbc hab)
      (scopedFrames frameView videoIds)
    have htake := hsorted.sublist (List.take_sublist QUESTION_ANSWER_TOP_K _)
    exact htake.imp fun h => by simpa [decide_eq_true_iff] using h
  · apply List.map_congr_left
    intro en _
    cases lookupName en.video_id <;> rfl
  · intro hempty
    simp [answerQuestion, hempty]
  · intro hne
    simp [answerQuestion, List.isEmpty_iff, hne]

/-- Name resolution used by the C8 witness. -/
def lookupNameW : String → Option String
  | "v1" => some "vid-one"
  | _ => none

/-- Witness for C8, scenario E of the spec: four candidate captions and
`top_k = 3` gives exactly three entries and the non-empty formatted
answer. -/
theorem questionAnswerFormatWitness :
    ((getCaptionInfo capfW frameViewW QUESTION_ANSWER_TOP_K none).length
      = 3) ∧
    answerQuestion lookupNameW
        (.ok (getCaptionInfo capfW frameViewW QUESTION_ANSWER_TOP_K none)) =
      ⟨.text, formatAnswerWithSources lookupNameW
        (getCaptionInfo capfW frameViewW QUESTION_ANSWER_TOP_K none)⟩ := by
  have h := questionAnswerFormat capfW frameViewW none lookupNameW
  exact ⟨h.1 (by decide), h.2.2.2.2 (by decide)⟩

/-! ### Claim C5 -/

/-- Claim C5: none of the four public entrypoints lets an exception
escape.  Every exceptional outcome of the three user-facing tools
(text-query clip, image clip, video Q&A) is converted at the boundary to
a `{type: "text"}` result — both in the inner service layer
(`extract_from_text_query`, `extract_from_image`, `answer_question`
catch their own exceptions) and in the outer `tools.py` layer — and
`process_video` converts every exceptional outcome to the boolean
`False` instead of raising. -/
theorem toolBoundariesNeverRaise (e : PyErr) (r : ToolResult) (b : Bool)
    (captionOutcome : Except PyErr (List ClipHit))
    (getPath : String → Except PyErr String)
    (extractClip : String → ℚ → ℚ → Except PyErr String)
    (speechOutcome : Except PyErr (List ClipHit))
    (lookupName : String → Option String) :
    ((getVideoClipFromUserQuery (.error e)).rtype = .text ∧
      getVideoClipFromUserQuery (.ok r) = r) ∧
    ((getVideoClipFromImage (.error e)).rtype = .text ∧
      getVideoClipFromImage (.ok r) = r) ∧
    ((askQuestionAboutVideo (.error e)).rtype = .text ∧
      askQuestionAboutVideo (.ok r) = r) ∧
    (processVideo (.error e) = false ∧ processVideo (.ok b) = b) ∧
    (extractFromTextQuery (.error e) captionOutcome getPath
        extractClip).rtype = .text ∧
    (extractFromTextQuery speechOutcome (.error e) getPath
        extractClip).rtype = .text ∧
    (∀ e2 : PyErr,
      textQueryBody speechOutcome captionOutcome getPath extractClip =
          .error e2 →
      (extractFromTextQuery speechOutcome captionOutcome getPath
        extractClip).rtype = .text) ∧
    (∀ e2 : PyErr,
      imageQueryBody speechOutcome getPath extractClip = .error e2 →
      (extractFromImage speechOutcome getPath extractClip).rtype = .text) ∧
    (answerQuestion lookupName (.error e)).rtype = .text := by
  refine ⟨⟨?_, rfl⟩, ⟨?_, rfl⟩, ⟨?_, rfl⟩, ⟨rfl, rfl⟩, ?_, ?_, ?_, ?_, rfl⟩
  · cases e <;> rfl
  · cases e <;> rfl
  · cases e <;> rfl
  · show (extractFromTextQuery (.error e) captionOutcome getPath
        extractClip).rtype = .text
    have hbody : textQueryBody (.error e) captionOutcome getPath
        extractClip = .error e := rfl
    rw [extractFromTextQuery, hbody]
    cases e <;> rfl
  · show (extractFromTextQuery speechOutcome (.error e) getPath
        extractClip).rtype = .text
    cases speechOutcome with
    | error e1 =>
      have hbody : textQueryBody (.error e1) (.error e) getPath
          extractClip = .error e1 := rfl
      rw [extractFromTextQuery, hbody]
      cases e1 <;> rfl
    | ok l =>
      have hbody : textQueryBody (.ok l) (.error e) getPath
          extractClip = .error e := rfl
      rw [extractFromTextQuery, hbody]
      cases e <;> rfl
  · intro e2 hbody
    rw [extractFromTextQuery, hbody]
    cases e2 <;> rfl
  · intro e2 hbody
    rw [extractFromImage, hbody]
    cases e2 <;> rfl

/-- Witness for C5: a concrete exceptional body at each boundary is
converted, never propagated. -/
theorem toolBoundariesNeverRaiseWitness :
    (getVideoClipFromUserQuery (.error .other)).rtype = .text ∧
    processVideo (.error (.validation "Video path cannot be empty")) =
      false ∧
    (extractFromTextQuery (.ok []) (.ok [⟨"v", 0, 10, -1⟩])
        (fun _ => .ok "path") (fun _ _ _ => .ok "clip")).rtype = .text := by
  have h := toolBoundariesNeverRaise .other ⟨.text, "x"⟩ true
    (.ok [⟨"v", 0, 10, -1⟩]) (fun _ => .ok "path") (fun _ _ _ => .ok "clip")
    (.ok []) (fun _ => none)
  refine ⟨h.1.1, ?_, ?_⟩
  · exact (toolBoundariesNeverRaise (.validation "Video path cannot be empty")
      ⟨.text, "x"⟩ true (.ok []) (fun _ => .ok "path")
      (fun _ _ _ => .ok "clip") (.ok []) (fun _ => none)).2.2.2.1.1
  · exact h.2.2.2.2.2.2.1 .other rfl

/-! ### Claim C6 -/

/-- The catalog after `_cleanup_video` is a sub-collection of the one
before. -/
lemma cleanup_catalog_subset (videoId : String) (s : ProcState) :
    (cleanupVideo videoId s).catalog ⊆ s.catalog :=
  fun _ hr => List.mem_of_mem_filter hr

/-- The catalog of the state step 6 of `add_video` hands to the insert
(either untouched or purged of the incomplete row) is a sub-collection
of the original catalog. -/
lemma step6_catalog_subset (s : ProcState) (videoName : String) :
    (match s.catalog.find? (fun r : VideoRecord =>
        r.video_name == videoName) with
      | some old => cleanupVideo old.video_id s
      | none => s).catalog ⊆ s.catalog := by
  cases s.catalog.find? (fun r : VideoRecord => r.video_name == videoName) with
  | none => exact fun _ hr => hr
  | some old => exact cleanup_catalog_subset old.video_id s

/-- The catalog after a `delete_video` call is a sub-collection of the
one before. -/
lemma deleteVideo_catalog_subset (s : ProcState) (videoId : String) :
    ((deleteVideo s videoId).2).catalog ⊆ s.catalog := by
  unfold deleteVideo
  by_cases he : videoId == ""
  · simp [he]
  · cases hf : s.catalog.find? (fun r => r.video_id == videoId) with
    | none => simp [he, hf]
    | some r =>
      simp only [he, hf]
      exact cleanup_catalog_subset videoId s

/-- A catalog member after the insert of step 7 is an old member or the
fresh `processing` row. -/
lemma mem_insert_catalog {i p n : String} {fp : List (ℚ × Nat × String)}
    {ap : List (ℚ × ℚ × String)} {st : ProcState} {r : VideoRecord}
    (hr : r ∈ (insertVideo i p n fp ap st).catalog) :
    r ∈ st.catalog ∨ r = ⟨i, p, n, .processing⟩ := by
  simpa [insertVideo] using hr

/-- A catalog member after `_mark_done` is an old member whose id does
not match, or the done-update of an old member whose id matches. -/
lemma mem_markDone_cases {i : String} {st : ProcState} {r : VideoRecord}
    (hr : r ∈ (markDone i st).catalog) :
    (r ∈ st.catalog ∧ r.video_id ≠ i) ∨
    (∃ r0 ∈ st.catalog, r0.video_id = i ∧
      r = { r0 with status := .done }) := by
  simp only [markDone, List.mem_map] at hr
  obtain ⟨r0, hr0, rfl⟩ := hr
  by_cases hid : r0.video_id == i
  · right
    exact ⟨r0, hr0, by simpa using hid, by rw [if_pos hid]⟩
  · left
    rw [if_neg hid]
    exact ⟨hr0, by simpa using hid⟩

/-- Case analysis on the state an `add_video` run produces: either it is
a no-op on the state, or the run passed validation and the idempotency
check and ends in the exception state (purge then best-effort
mark-failed) or in the marked-done state. -/
lemma addVideo_snd_cases (s : ProcState) (p n i : String)
    (vf vfmt : Bool) (fp : List (ℚ × Nat × String))
    (ap : List (ℚ × ℚ × String)) (fl : Bool) :
    (addVideo s p n i vf vfmt fp ap fl).2 = s ∨
    (vf = true ∧ vfmt = true ∧ isAlreadyAdded n s.catalog = false ∧
      ((fl = true ∧ (addVideo s p n i vf vfmt fp ap fl).2 =
          markFailed i (cleanupVideo i (insertVideo i p n fp ap
            (match s.catalog.find? (fun r => r.video_name == n) with
              | some old => cleanupVideo old.video_id s
              | none => s)))) ∨
       (fl = false ∧ (addVideo s p n i vf vfmt fp ap fl).2 =
          markDone i (insertVideo i p n fp ap
            (match s.catalog.find? (fun r => r.video_name == n) with
              | some old => cleanupVideo old.video_id s
              | none => s))))) := by
  cases vf with
  | false => left; simp [addVideo]
  | true =>
    cases vfmt with
    | false => left; simp [addVideo]
    | true =>
      by_cases hA : isAlreadyAdded n s.catalog
      · left; simp [addVideo, hA]
      · right
        refine ⟨rfl, rfl, by simpa using hA, ?_⟩
        cases fl with
        | true => left; exact ⟨rfl, by simp [addVideo, hA]⟩
        | false => right; exact ⟨rfl, by simp [addVideo, hA]⟩

/-- The catalog produced by the exception path of `add_video` is a
sub-collection of the original catalog: the purge removes every row of
the fresh id (in particular the row inserted at step 7), and the
best-effort mark-failed then finds nothing to update. -/
lemma failPath_catalog_subset (s : ProcState) (p n i : String)
    (fp : List (ℚ × Nat × String)) (ap : List (ℚ × ℚ × String)) :
    (markFailed i (cleanupVideo i (insertVideo i p n fp ap
      (match s.catalog.find? (fun r => r.video_name == n) with
        | some old => cleanupVideo old.video_id s
        | none => s)))).catalog ⊆ s.catalog := by
  intro r hr
  rw [markFailed_of_no_id (cleanup_catalog_no_id i _)] at hr
  have hid : r.video_id ≠ i := cleanup_catalog_no_id i _ r hr
  have hr2 := cleanup_catalog_subset i _ hr
  rcases mem_insert_catalog hr2 with hr3 | rfl
  · exact step6_catalog_subset s n hr3
  · exact absurd rfl hid

/-- `NoFailed` is preserved by every pipeline operation: the `failed`
status is only written by the best-effort `_mark_failed`, which always
runs after `_cleanup_video` already removed the rows it would update. -/
lemma noFailed_applyOp {s : ProcState} (h : NoFailed s.catalog)
    (op : PipeOp) : NoFailed (applyOp s op).catalog := by
  cases op with
  | del i =>
    intro r hr
    exact h r (deleteVideo_catalog_subset s i hr)
  | add p n i vf vfmt fp ap fl =>
    show NoFailed ((addVideo s p n i vf vfmt fp ap fl).2).catalog
    rcases addVideo_snd_cases s p n i vf vfmt fp ap fl with heq |
      ⟨_, _, _, ⟨_, heq⟩ | ⟨_, heq⟩⟩
    · rw [heq]; exact h
    · rw [heq]
      intro r hr
      exact h r (failPath_catalog_subset s p n i fp ap hr)
    · rw [heq]
      intro r hr
      rcases mem_markDone_cases hr with ⟨hmem, _⟩ | ⟨r0, hmem, _, rfl⟩
      · rcases mem_insert_catalog hmem with h3 | rfl
        · exact h r (step6_catalog_subset s n h3)
        · simp
      · simp

/-- Every state reachable from the empty initial state by pipeline
operations has a `failed`-free catalog. -/
lemma noFailed_runOps (ops : List PipeOp) :
    NoFailed (runOps initialState ops).catalog := by
  suffices hgen : ∀ (l : List PipeOp) (s : ProcState),
      NoFailed s.catalog → NoFailed (runOps s l).catalog from
    hgen ops initialState (fun r hr => by cases hr)
  intro l
  induction l with
  | nil => intro s hs; exact hs
  | cons op rest ih =>
    intro s hs
    exact ih (applyOp s op) (noFailed_applyOp hs op)

/-- Claim C6: along every operation sequence from the empty catalog, a
`processing` row after a step was either already present before the step
or is the fresh row registered by an ingest/reprocess trigger (an
`add_video` run that passed the idempotency check); a `done` row was
already present, or is the Processing→Done transition of a row present
before, or is the freshly ingested row marked done by its own run; and
no reachable catalog contains a `failed` row — so a row's status only
ever moves Processing→Done (the Processing→Failed write is dead in this
model because the purge precedes the mark), and never Done→Processing
without a reprocess trigger. -/
theorem statusTransitionDiscipline (ops : List PipeOp) (op : PipeOp) :
    (∀ r ∈ (applyOp (runOps initialState ops) op).catalog,
        r.status = .processing →
        r ∈ (runOps initialState ops).catalog ∨
        (∃ videoPath videoName fp ap fl,
          op = .add videoPath videoName r.video_id true true fp ap fl ∧
          r = ⟨r.video_id, videoPath, videoName, .processing⟩ ∧
          isAlreadyAdded videoName
            (runOps initialState ops).catalog = false)) ∧
    (∀ r ∈ (applyOp (runOps initialState ops) op).catalog,
        r.status = .done →
        r ∈ (runOps initialState ops).catalog ∨
        { r with status := .processing } ∈
          (runOps initialState ops).catalog ∨
        (∃ videoPath videoName fp ap fl,
          op = .add videoPath videoName r.video_id true true fp ap fl ∧
          r = ⟨r.video_id, videoPath, videoName, .done⟩ ∧
          isAlreadyAdded videoName
            (runOps initialState ops).catalog = false)) ∧
    NoFailed (applyOp (runOps initialState ops) op).catalog := by
  set s := runOps initialState ops with hs
  have hnf : NoFailed s.catalog := noFailed_runOps ops
  refine ⟨?_, ?_, noFailed_applyOp hnf op⟩
  · cases op with
    | del i =>
      intro r hr _
      exact Or.inl (deleteVideo_catalog_subset s i hr)
    | add p n i vf vfmt fp ap fl =>
      intro r hr hst
      have hr' : r ∈ ((addVideo s p n i vf vfmt fp ap fl).2).catalog := hr
      rcases addVideo_snd_cases s p n i vf vfmt fp ap fl with heq |
        ⟨hvf, hvfmt, hA, ⟨hfl, heq⟩ | ⟨hfl, heq⟩⟩
      · rw [heq] at hr'
        exact Or.inl hr'
      · rw [heq] at hr'
        exact Or.inl (failPath_catalog_subset s p n i fp ap hr')
      · rw [heq] at hr'
        rcases mem_markDone_cases hr' with ⟨hmem, hid⟩ | ⟨r0, _, _, rfl⟩
        · rcases mem_insert_catalog hmem with h3 | rfl
          · exact Or.inl (step6_catalog_subset s n h3)
          · exact absurd rfl hid
        · exact absurd hst (by simp)
  · cases op with
    | del i =>
      intro r hr _
      exact Or.inl (deleteVideo_catalog_subset s i hr)
    | add p n i vf vfmt fp ap fl =>
      intro r hr hst
      have hr' : r ∈ ((addVideo s p n i vf vfmt fp ap fl).2).catalog := hr
      rcases addVideo_snd_cases s p n i vf vfmt fp ap fl with heq |
        ⟨hvf, hvfmt, hA, ⟨hfl, heq⟩ | ⟨hfl, heq⟩⟩
      · rw [heq] at hr'
        exact Or.inl hr'
      · rw [heq] at hr'
        exact Or.inl (failPath_catalog_subset s p n i fp ap hr')
      · rw [heq] at hr'
        rcases mem_markDone_cases hr' with ⟨hmem, hid⟩ | ⟨r0, hmem, hid, rfl⟩
        · rcases mem_insert_catalog hmem with h3 | rfl
          · exact Or.inl (step6_catalog_subset s n h3)
          · exact absurd rfl hid
        · rcases mem_insert_catalog hmem with h3 | rfl
          · have hr0mem : r0 ∈ s.catalog := step6_catalog_subset s n h3
            cases hr0st : r0.status with
            | processing =>
              refine Or.inr (Or.inl ?_)
              show ({ r0 with status := .processing } : VideoRecord) ∈
                s.catalog
              have hrr : ({ r0 with status := .processing } :
                  VideoRecord) = r0 := by
                rw [← hr0st]
              rw [hrr]
              exact hr0mem
            | done =>
              refine Or.inl ?_
              have hrr : ({ r0 with status := .done } :
                  VideoRecord) = r0 := by
                rw [← hr0st]
              rw [hrr]
              exact hr0mem
            | failed => exact absurd hr0st (hnf r0 hr0mem)
          · refine Or.inr (Or.inr ⟨p, n, fp, ap, fl, ?_, rfl, hA⟩)
            rw [hvf, hvfmt]

/-- Witness for C6: in the one-step history that ingests `name1` from
the empty catalog, the resulting `done` row is accounted for by the
transition discipline — here as the freshly ingested row of its own
run. -/
theorem statusTransitionDisciplineWitness :
    (⟨"id1", "p", "name1", VideoStatus.done⟩ : VideoRecord) ∈
        (runOps initialState []).catalog ∨
      ({ (⟨"id1", "p", "name1", VideoStatus.done⟩ : VideoRecord) with
          status := .processing } ∈ (runOps initialState []).catalog) ∨
      (∃ videoPath videoName fp ap fl,
        (PipeOp.add "p" "name1" "id1" true true [] [] false) =
          .add videoPath videoName
            (⟨"id1", "p", "name1", VideoStatus.done⟩ :
              VideoRecord).video_id true true fp ap fl ∧
        (⟨"id1", "p", "name1", VideoStatus.done⟩ : VideoRecord) =
          ⟨(⟨"id1", "p", "name1", VideoStatus.done⟩ :
              VideoRecord).video_id, videoPath, videoName, .done⟩ ∧
        isAlreadyAdded videoName (runOps initialState []).catalog = false) :=
  (statusTransitionDiscipline []
      (.add "p" "name1" "id1" true true [] [] false)).2.1
    ⟨"id1", "p", "name1", VideoStatus.done⟩ (by decide) rfl
